import Mathlib

/-!
Verification development for scripts/hiddenapi/analyze_bcpf.py.

The Python source is shallowly embedded below. Pure string manipulation is
modelled on the character lists underlying Lean strings so that all
definitions compute by kernel reduction; each primitive carries a note
naming the Python construct it embeds. Stateful flows (the line-stream
parser, the accumulating analysis result) are modelled by explicit state
passing; fatal exits (sys.exit, uncaught exceptions) are modelled by an
error channel.
-/

namespace AnalyzeBcpf

/-! ## Python string primitives -/

/-- Models Python str.startswith for an ordinary (non-tuple) argument. -/
def pyStartsWith (s p : String) : Bool :=
  p.data.isPrefixOf s.data

/-- Models Python str.removeprefix: drop p from the front of s when s starts
with p, otherwise return s unchanged. -/
def stripPre (s p : String) : String :=
  if p.data.isPrefixOf s.data then ⟨s.data.drop p.data.length⟩ else s

/-- Models Python str.removesuffix: drop p from the end of s when s ends
with p, otherwise return s unchanged. -/
def stripSuf (s p : String) : String :=
  if p.data.isSuffixOf s.data then ⟨s.data.take (s.data.length - p.data.length)⟩ else s

/-- Splits a character list at every occurrence of the separator character.
Always returns at least one (possibly empty) segment, matching Python
str.split with a one-character separator. -/
def splitChars (sep : Char) : List Char → List (List Char)
  | [] => [[]]
  | c :: cs =>
    let r := splitChars sep cs
    if c = sep then [] :: r
    else
      match r with
      | [] => [[c]]
      | seg :: rest => (c :: seg) :: rest

/-- Models Python str.split with a one-character separator: the empty string
splits to one empty field, and separators delimit possibly empty fields. -/
def pySplit (s : String) (sep : Char) : List String :=
  (splitChars sep s.data).map (fun l => ⟨l⟩)

/-- Containment of one character list inside another, scanning left to right;
the empty needle is contained in everything. -/
def infixOf (needle : List Char) (hay : List Char) : Bool :=
  needle.isPrefixOf hay ||
    match hay with
    | [] => false
    | _ :: cs => infixOf needle cs

/-- Models the Python membership test sub in s on strings. -/
def pyContains (s sub : String) : Bool :=
  infixOf sub.data s.data

/-- Models Python str.replace for one-character old and new values, which is
a character-wise substitution. -/
def pyReplaceChar (s : String) (a b : Char) : String :=
  ⟨s.data.map (fun c => if c = a then b else c)⟩

/-- Characters of a list preceding the first occurrence of the separator
list; the whole list when the separator does not occur. This is field 0 of
Python str.split with a multi-character separator. -/
def charsBefore (sep : List Char) : List Char → List Char
  | [] => []
  | c :: cs => if sep.isPrefixOf (c :: cs) then [] else c :: charsBefore sep cs

/-! ## Inconsistent flags report parser

Embeds BcpfAnalyzer.scan_inconsistent_flags_report and its helpers. The
LineStream is modelled as a List of already right-stripped lines; a scan
consumes a prefix of the list and returns the unconsumed remainder, which
models the shared mutable line iterator of the source. Fatal terminations
are modelled by PyAbort: exitCode models sys.exit, stopIteration models an
uncaught StopIteration escaping from next(triples).
-/

/-- Abnormal termination of the Python process: sys.exit with a code, or an
uncaught StopIteration raised by next() on an exhausted iterator. -/
inductive PyAbort where
  | exitCode (code : Nat)
  | stopIteration
deriving Repr, DecidableEq

/-- Flag tokens attached to one signature in one source, in input order. -/
abbrev FlagList := List String

/-- Models the Python dict from member signature to the pair
(module flags, monolithic flags), as an insertion-ordered association list
with unique keys. -/
abbrev DiffDict := List (String × (FlagList × FlagList))

/-- Models Python dict assignment d[k] = v: replace the value in place when
the key is present, otherwise append the new binding. -/
def dictInsert (d : DiffDict) (k : String) (v : FlagList × FlagList) : DiffDict :=
  if d.any (fun p => p.1 == k) then
    d.map (fun p => if p.1 == k then (k, v) else p)
  else d ++ [(k, v)]

/-- Embeds BcpfAnalyzer.check_inconsistent_flag_lines as the condition under
which it returns normally: the module line must start with the marker for
module lines, the monolithic line with the marker for monolithic lines, and
the separator must be falsy (empty). When the condition fails the source
calls sys.exit(1). The significant argument only gates logging.debug calls
in the source and has no effect on the outcome. -/
def check_inconsistent_flag_lines (significant : Bool)
    (module_line monolithic_line separator_line : String) : Bool :=
  pyStartsWith module_line "< " && pyStartsWith monolithic_line "> " &&
    separator_line == ""

/-- Field 0 of the line after stripping the given diff marker and splitting
on commas; embeds module_parts[0] and monolithic_parts[0] of the source. -/
def lineSignature (marker line : String) : String :=
  (pySplit (stripPre line marker) ',').headD ""

/-- The fields after field 0, in input order; embeds module_parts[1:] and
monolithic_parts[1:] of the source. -/
def lineFlags (marker line : String) : FlagList :=
  (pySplit (stripPre line marker) ',').tail

/-- Embeds the body loop of scan_inconsistent_flags_report: the iteration
over triples = zip(lines, lines, lines) after the header triple. Python zip
silently drops a final incomplete group: when fewer than three lines remain
they are consumed and discarded and the loop ends normally, which is the
catch-all case below. On loop exhaustion the source returns an empty
separator with the accumulated diffs. -/
def scanLoop (significant : Bool) :
    DiffDict → List String → Except PyAbort (String × DiffDict × List String)
  | diffs, module_line :: monolithic_line :: separator_line :: rest =>
    if check_inconsistent_flag_lines significant module_line monolithic_line "" then
      let module_signature := lineSignature "< " module_line
      let module_flags := lineFlags "< " module_line
      let monolithic_signature := lineSignature "> " monolithic_line
      let monolithic_flags := lineFlags "> " monolithic_line
      if module_signature = monolithic_signature then
        let diffs1 := dictInsert diffs module_signature (module_flags, monolithic_flags)
        if separator_line = "" then scanLoop significant diffs1 rest
        else .ok (separator_line, diffs1, rest)
      else .error (.exitCode 1)
    else .error (.exitCode 1)
  | diffs, _ => .ok ("", diffs, [])

/-- Embeds BcpfAnalyzer.scan_inconsistent_flags_report. The bcpfSubdir
argument is the precomputed os.path.join(bcpf_dir, self.bcpf) value; path
resolution is an external collaborator. The header triple is read
unconditionally by next(triples): with fewer than three lines available the
StopIteration escapes uncaught. The significance test inspects the header
module line only; in the source it gates logging and the
Filtering-out report message, and is threaded through unchanged. -/
def scan_inconsistent_flags_report (bcpfSubdir : String) :
    List String → Except PyAbort (String × DiffDict × List String)
  | module_line :: monolithic_line :: separator_line :: rest =>
    let significant := pyContains module_line bcpfSubdir
    if check_inconsistent_flag_lines significant module_line monolithic_line
        separator_line then
      scanLoop significant [] rest
    else .error (.exitCode 1)
  | _ => .error .stopIteration

/-- The fixed marker line introducing an inconsistent flags report section. -/
def INCONSISTENT_FLAGS : String := "ERROR: Hidden API flags are inconsistent:"

theorem scanLoop_rem_length_le (significant : Bool) :
    ∀ (ls : List String) (d : DiffDict) (sep : String) (d' : DiffDict)
      (rem : List String),
      scanLoop significant d ls = Except.ok (sep, d', rem) → rem.length ≤ ls.length
  | m :: p :: s :: rest, d, sep, d', rem => by
    intro h
    simp only [scanLoop] at h
    split at h
    · split at h
      · split at h
        · have := scanLoop_rem_length_le significant rest
            (dictInsert d (lineSignature "< " m) (lineFlags "< " m, lineFlags "> " p))
            sep d' rem h
          simp only [List.length_cons]
          omega
        · simp only [Except.ok.injEq, Prod.mk.injEq] at h
          obtain ⟨-, -, hrem⟩ := h
          subst hrem
          simp only [List.length_cons]
          omega
      · exact absurd h (by simp)
    · exact absurd h (by simp)
  | [], d, sep, d', rem => by
    intro h
    simp only [scanLoop, Except.ok.injEq, Prod.mk.injEq] at h
    obtain ⟨-, -, hrem⟩ := h
    simp [← hrem]
  | [m], d, sep, d', rem => by
    intro h
    simp only [scanLoop, Except.ok.injEq, Prod.mk.injEq] at h
    obtain ⟨-, -, hrem⟩ := h
    simp [← hrem]
  | [m, p], d, sep, d', rem => by
    intro h
    simp only [scanLoop, Except.ok.injEq, Prod.mk.injEq] at h
    obtain ⟨-, -, hrem⟩ := h
    simp [← hrem]

theorem scan_rem_length_le (bcpfSubdir : String) (ls : List String)
    (sep : String) (d : DiffDict) (rem : List String)
    (h : scan_inconsistent_flags_report bcpfSubdir ls = Except.ok (sep, d, rem)) :
    rem.length + 3 ≤ ls.length := by
  match ls with
  | m :: p :: s :: rest =>
    simp only [scan_inconsistent_flags_report] at h
    split at h
    · have := scanLoop_rem_length_le (pyContains m bcpfSubdir) rest [] sep d rem h
      simp only [List.length_cons]
      omega
    · exact absurd h (by simp)
  | [] => simp [scan_inconsistent_flags_report] at h
  | [m] => simp [scan_inconsistent_flags_report] at h
  | [m, p] => simp [scan_inconsistent_flags_report] at h

/-- Embeds the line loop of BcpfAnalyzer.build_hiddenapi_flags. Each line is
read in turn; while the current line equals the report marker a whole
section is scanned, the diffs variable is overwritten with that scan result,
and the returned separator becomes the current line for the next check of
the while condition. -/
def buildLoop (bcpfSubdir : String) :
    Option DiffDict → List String → Except PyAbort (Option DiffDict)
  | diffs, [] => .ok diffs
  | diffs, line :: rest =>
    if line = INCONSISTENT_FLAGS then
      match h : scan_inconsistent_flags_report bcpfSubdir rest with
      | .error e => .error e
      | .ok (sep, d, rem) => buildLoop bcpfSubdir (some d) (sep :: rem)
    else buildLoop bcpfSubdir diffs rest
termination_by d ls => ls.length
decreasing_by
  · have := scan_rem_length_le bcpfSubdir rest sep d rem h
    simp only [List.length_cons]
    omega
  · simp

/-- Embeds BcpfAnalyzer.build_hiddenapi_flags over the lines produced by the
external build invocation together with its exit status. After the line
loop, the source only writes a Command-failed or Command-succeeded debug log
line depending on returncode and returns the scanned diffs either way, so
the returncode argument does not influence the result. -/
def build_hiddenapi_flags (bcpfSubdir : String) (lines : List String)
    (returncode : Int) : Except PyAbort (Option DiffDict) :=
  buildLoop bcpfSubdir none lines

/-- Embeds the tail of BcpfAnalyzer.load_module_info: after waiting for the
build of module-info.json, a truthy (non-zero) returncode raises an
Exception and aborts the run. -/
def load_module_info_check (module_info_file : String) (returncode : Int) :
    Except String Unit :=
  if returncode ≠ 0 then .error ("Error building " ++ module_info_file)
  else .ok ()

/-! ## Signature catalog

Embeds the signature and class sets of BcpfAnalyzer together with the
signatures and classes properties and load_all_flags. Python sets are
modelled as duplicate-free lists with membership-guarded insertion; the
queries only depend on membership and emptiness. -/

/-- Embeds Python set.add: the element is inserted when absent, the set is
unchanged when present. -/
def setAdd (s : List String) (x : String) : List String :=
  if x ∈ s then s else s ++ [x]

/-- The mutable catalog fields of BcpfAnalyzer, both defaulted to the empty
set by dataclasses.field(default_factory=set). -/
structure BcpfAnalyzerState where
  _signatures : List String := []
  _classes : List String := []
deriving Repr, DecidableEq

/-- Embeds BcpfAnalyzer.line_to_signature: field 0 of the comma-split line. -/
def line_to_signature (line : String) : String :=
  (pySplit line ',').headD ""

/-- Embeds BcpfAnalyzer.signature_to_class: the signature truncated at the
first occurrence of the class/member separator. -/
def signature_to_class (signature : String) : String :=
  ⟨charsBefore [';', '-', '>'] signature.data⟩

/-- Embeds the signatures property: a falsy (empty) signature set raises. -/
def signatures (st : BcpfAnalyzerState) : Except String (List String) :=
  if st._signatures.isEmpty then .error "signatures has not been initialized"
  else .ok st._signatures

/-- Embeds the classes property: a falsy (empty) class set raises. -/
def classes (st : BcpfAnalyzerState) : Except String (List String) :=
  if st._classes.isEmpty then .error "classes has not been initialized"
  else .ok st._classes

/-- One iteration of the line loop of load_all_flags: the signature of the
line joins the signature set and the derived class joins the class set. -/
def load_flags_line (st : BcpfAnalyzerState) (line : String) :
    BcpfAnalyzerState :=
  let signature := line_to_signature line
  { st with
    _signatures := setAdd st._signatures signature,
    _classes := setAdd st._classes (signature_to_class signature) }

/-- Embeds BcpfAnalyzer.load_all_flags over the already-read lines of the
all-flags.csv artifact: every line contributes its signature to the
signature set and the derived class to the class set. The source performs
no further checks; in particular it does not record that loading happened. -/
def load_all_flags (st : BcpfAnalyzerState) (lines : List String) :
    BcpfAnalyzerState :=
  lines.foldl load_flags_line st

/-! ## Change plan data model -/

/-- Embeds the FileChange dataclass; the source orders FileChange values by
path via its custom less-than. -/
structure FileChange where
  path : String
  description : String
deriving Repr, DecidableEq

/-- Embeds the HiddenApiPropertyChange dataclass. -/
structure HiddenApiPropertyChange where
  property_name : String
  values : List String
  property_comment : String := ""
deriving Repr, DecidableEq

/-- Embeds the Result dataclass accumulated through the analysis. -/
structure Result where
  diffs : Option DiffDict := none
  property_changes : List HiddenApiPropertyChange := []
  file_changes : List FileChange := []
deriving Repr, DecidableEq

/-! ## Override file scanner -/

/-- The set of signatures of the override file that are members of the
catalog. The source accumulates them into a Python set while iterating the
file lines; membership and emptiness are order-independent, and the
first-occurrence-deduplicated filtered list is taken as the canonical
iteration order of that set. -/
def matchedSignatures (catalog : List String) (fileLines : List String) :
    List String :=
  (fileLines.filter (fun s => decide (s ∈ catalog))).dedup

/-- Embeds textwrap.indent of the newline-join of the matched signatures
with a twelve-space indent, as used for the insert block of both file
change descriptions. -/
def indentedEntries (matched : List String) : String :=
  String.intercalate "\n" (matched.map (fun s => "            " ++ s))

/-- Embeds BcpfAnalyzer.report_hidden_api_flag_file_changes. Reading the
override file is externalized into the flagsFileLines argument, and
new_file_change is modelled by the relTop argument standing for
os.path.relpath(path, top_dir). When at least one signature of the file is
in the catalog, one removal FileChange for the override file, one addition
FileChange for the fragment-owned file and one HiddenApiPropertyChange are
appended; otherwise the result is returned untouched. -/
def report_hidden_api_flag_file_changes (relTop : String → String)
    (catalog : List String) (property_name flags_file rel_bcpf_flags_file
    bcpf_flags_file : String) (flagsFileLines : List String)
    (result : Result) : Result :=
  let matched_signatures := matchedSignatures catalog flagsFileLines
  if matched_signatures.isEmpty then result
  else
    let insert := indentedEntries matched_signatures
    { result with
      file_changes := result.file_changes ++
        [{ path := relTop flags_file,
           description := "Remove the following entries:\n" ++ insert ++ "\n" },
         { path := relTop bcpf_flags_file,
           description := "Add the following entries:\n" ++ insert ++ "\n" }],
      property_changes := result.property_changes ++
        [{ property_name := property_name, values := [rel_bcpf_flags_file] }] }

/-- Embeds the legacy basename remapping of
check_frameworks_base_boot_hidden_api_files: the two legacy basenames are
replaced by their renamed canonical forms, all others pass through. -/
def remapBasename (basename : String) : String :=
  if basename = "hiddenapi-max-target-o.txt" then
    "hiddenapi-max-target-o-low-priority.txt"
  else if basename = "hiddenapi-max-target-r-loprio.txt" then
    "hiddenapi-max-target-r-low-priority.txt"
  else basename

/-- Embeds the property name derivation of
check_frameworks_base_boot_hidden_api_files, applied to the already
remapped basename: strip the fixed head and the .txt tail, then replace
every dash with an underscore. -/
def derive_property_name (basename : String) : String :=
  pyReplaceChar (stripSuf (stripPre basename "hiddenapi-") ".txt") '-' '_'

/-- The fragment-relative path of the fragment-owned flags file generated
for an override file, built from the remapped basename. -/
def rel_bcpf_flags_file (basename : String) : String :=
  "hiddenapi/" ++ remapBasename basename

/-! ## Rendering order of file changes -/

/-- Embeds FileChange.__lt__ lifted to the non-strict comparison used by a
stable ascending sort: a.path ≤ b.path. -/
def fileChangeLe (a b : FileChange) : Bool :=
  decide (a.path ≤ b.path)

/-- Embeds result.file_changes.sort() in analyze: Python list.sort is a
stable ascending sort driven by FileChange.__lt__, which compares paths. -/
def sortFileChanges (l : List FileChange) : List FileChange :=
  l.mergeSort fileChangeLe

/-! ## Unfolding lemmas for the build line loop -/

theorem buildLoop_nil (b : String) (d : Option DiffDict) :
    buildLoop b d [] = .ok d := by
  rw [buildLoop]

theorem buildLoop_cons_other (b : String) (d : Option DiffDict)
    (line : String) (rest : List String) (h : line ≠ INCONSISTENT_FLAGS) :
    buildLoop b d (line :: rest) = buildLoop b d rest := by
  rw [buildLoop]
  simp [h]

theorem buildLoop_cons_marker_ok (b : String) (d : Option DiffDict)
    (rest : List String) (sep : String) (dd : DiffDict) (rem : List String)
    (h : scan_inconsistent_flags_report b rest = .ok (sep, dd, rem)) :
    buildLoop b d (INCONSISTENT_FLAGS :: rest) = buildLoop b (some dd) (sep :: rem) := by
  rw [buildLoop, if_pos rfl]
  split
  · next e heq => rw [h] at heq; simp at heq
  · next sep2 dd2 rem2 heq =>
      rw [h] at heq
      simp only [Except.ok.injEq, Prod.mk.injEq] at heq
      obtain ⟨h1, h2, h3⟩ := heq
      rw [h1, h2, h3]

theorem buildLoop_cons_marker_err (b : String) (d : Option DiffDict)
    (rest : List String) (e : PyAbort)
    (h : scan_inconsistent_flags_report b rest = .error e) :
    buildLoop b d (INCONSISTENT_FLAGS :: rest) = .error e := by
  rw [buildLoop, if_pos rfl]
  split
  · next e2 heq => rw [h] at heq; simp at heq; rw [heq]
  · next sep2 dd2 rem2 heq => rw [h] at heq; simp at heq

/-! ## Claim theorems -/

/-- C1: the claim says that no DiffEntry from a section whose header module
line does not contain the output directory of the analyzed fragment appears
in the returned DiffMap. The code violates this: significance only gates
logging, and line 468 of the source records every entry unconditionally, so
the single non-significant section below, for which the source prints the
Filtering-out message, still yields its entry in the diffs returned by both
scan_inconsistent_flags_report and build_hiddenapi_flags. This theorem
evaluates the embedded code at that failing input. -/
theorem scan_keeps_nonsignificant_section_entries :
    pyContains "< other/module/stub-flags.csv" "frameworks/av/mybcpf" = false
    ∧ scan_inconsistent_flags_report "frameworks/av/mybcpf"
        ["< other/module/stub-flags.csv",
         "> out/soong/hiddenapi/hiddenapi-stub-flags.txt", "",
         "< La/B;->m()V,blocked", "> La/B;->m()V,public-api", ""]
        = .ok ("", [("La/B;->m()V", (["blocked"], ["public-api"]))], [])
    ∧ build_hiddenapi_flags "frameworks/av/mybcpf"
        [INCONSISTENT_FLAGS, "< other/module/stub-flags.csv",
         "> out/soong/hiddenapi/hiddenapi-stub-flags.txt", "",
         "< La/B;->m()V,blocked", "> La/B;->m()V,public-api", ""] 0
        = .ok (some [("La/B;->m()V", (["blocked"], ["public-api"]))]) := by
  refine ⟨rfl, rfl, ?_⟩
  rw [build_hiddenapi_flags,
    buildLoop_cons_marker_ok "frameworks/av/mybcpf" none
      ["< other/module/stub-flags.csv",
       "> out/soong/hiddenapi/hiddenapi-stub-flags.txt", "",
       "< La/B;->m()V,blocked", "> La/B;->m()V,public-api", ""]
      "" [("La/B;->m()V", (["blocked"], ["public-api"]))] [] (by rfl),
    buildLoop_cons_other _ _ _ _ (by decide), buildLoop_nil]

/-- C2 counterexample: the claim says a diagnostic stream that ends
mid-triple makes the parser raise a structural error. On this concrete
stream, which ends with a module line that has no accompanying monolithic
line, the embedded parser instead returns normally with the incomplete
triple silently discarded, because zip(lines, lines, lines) drops a final
incomplete group. -/
theorem scan_truncated_triple_silently_dropped :
    scan_inconsistent_flags_report "x/y"
      ["< m/file.csv", "> p/file.txt", "", "< La;->m()V,blocked"]
      = .ok ("", [], []) := rfl

/-- C2 amended: a stream that ends before a complete header triple is read
aborts with an uncaught StopIteration, while a stream that ends mid-triple
after the header (one or two leftover lines) is silently truncated: the
incomplete lines are consumed and discarded and the scan returns normally
with the entries collected so far. -/
theorem scan_truncation_behavior :
    (∀ (bcpfSubdir : String) (ls : List String), ls.length < 3 →
        scan_inconsistent_flags_report bcpfSubdir ls = .error .stopIteration)
    ∧ (∀ (significant : Bool) (d : DiffDict) (m : String),
        scanLoop significant d [m] = .ok ("", d, []))
    ∧ (∀ (significant : Bool) (d : DiffDict) (m p : String),
        scanLoop significant d [m, p] = .ok ("", d, [])) := by
  refine ⟨?_, fun significant d m => rfl, fun significant d m p => rfl⟩
  intro bcpfSubdir ls h
  rcases ls with _ | ⟨a, _ | ⟨b, _ | ⟨c, tl⟩⟩⟩
  · rfl
  · rfl
  · rfl
  · simp only [List.length_cons] at h
    omega

/-- Witness for the C2 amended theorem at concrete inputs. -/
theorem scan_truncation_behavior_witness :
    (([] : List String).length < 3
      ∧ scan_inconsistent_flags_report "b" [] = .error .stopIteration)
    ∧ scanLoop false [] ["< x"] = .ok ("", [], [])
    ∧ scanLoop false [] ["< x", "> x"] = .ok ("", [], []) :=
  ⟨⟨by decide, scan_truncation_behavior.1 "b" [] (by decide)⟩,
   scan_truncation_behavior.2.1 false [] "< x",
   scan_truncation_behavior.2.2 false [] "< x" "> x"⟩

/-- C3: every triple consumed in the diff loop after the header whose
module line does not start with the module marker, or whose monolithic line
does not start with the monolithic marker, or whose two extracted
signatures differ, makes the parser terminate fatally with exit code 1; the
error result means the triple is never skipped with parsing continuing.
The header triple carries file paths, not signatures, and is outside the
scope of the signature comparison in the source. -/
theorem scanLoop_malformed_triple_fatal :
    ∀ (significant : Bool) (diffs : DiffDict)
      (module_line monolithic_line separator_line : String) (rest : List String),
      (¬ (pyStartsWith module_line "< " = true
            ∧ pyStartsWith monolithic_line "> " = true)
        ∨ lineSignature "< " module_line ≠ lineSignature "> " monolithic_line) →
      scanLoop significant diffs
        (module_line :: monolithic_line :: separator_line :: rest)
        = .error (.exitCode 1) := by
  intro significant diffs m p s rest h
  by_cases hc : check_inconsistent_flag_lines significant m p "" = true
  · rcases h with h | h
    · exfalso
      apply h
      simpa [check_inconsistent_flag_lines] using hc
    · simp only [scanLoop, hc, if_true]
      simp [h]
  · simp only [scanLoop]
    rw [if_neg hc]

/-- Witness for C3 at a concrete malformed triple. -/
theorem scanLoop_malformed_triple_fatal_witness :
    (¬ (pyStartsWith "missing marker La;->m()V" "< " = true
          ∧ pyStartsWith "> La;->m()V,x" "> " = true)
      ∨ lineSignature "< " "missing marker La;->m()V"
          ≠ lineSignature "> " "> La;->m()V,x")
    ∧ scanLoop false []
        ["missing marker La;->m()V", "> La;->m()V,x", ""]
        = .error (.exitCode 1) :=
  ⟨Or.inl (by decide),
   scanLoop_malformed_triple_fatal false [] _ _ _ [] (Or.inl (by decide))⟩

/-- C4 counterexample: the claim says a non-zero exit status of the
external build invocation is fatal for the step that caused it and the plan
is not built. In build_hiddenapi_flags the source only writes a debug log
line for a non-zero returncode: on this concrete run with exit status 1 the
embedded step still returns its scanned diffs normally, and the analysis
goes on to build and render the plan from them. -/
theorem build_flags_nonzero_exit_not_fatal :
    build_hiddenapi_flags "frameworks/av/mybcpf"
      [INCONSISTENT_FLAGS,
       "< out/soong/.intermediates/frameworks/av/mybcpf/filtered-stub-flags.csv",
       "> out/soong/hiddenapi/hiddenapi-stub-flags.txt", "",
       "< La/B;->m()V,blocked", "> La/B;->m()V,public-api", ""] 1
      = .ok (some [("La/B;->m()V", (["blocked"], ["public-api"]))]) := by
  rw [build_hiddenapi_flags,
    buildLoop_cons_marker_ok "frameworks/av/mybcpf" none
      ["< out/soong/.intermediates/frameworks/av/mybcpf/filtered-stub-flags.csv",
       "> out/soong/hiddenapi/hiddenapi-stub-flags.txt", "",
       "< La/B;->m()V,blocked", "> La/B;->m()V,public-api", ""]
      "" [("La/B;->m()V", (["blocked"], ["public-api"]))] [] (by rfl),
    buildLoop_cons_other _ _ _ _ (by decide), buildLoop_nil]

/-- C4 amended: a truthy (non-zero) exit status of the build of
module-info.json raises and aborts the run before any plan exists, whereas
the exit status of the hidden-api flags build invocations never influences
the result of build_hiddenapi_flags, which returns the scanned diffs and
lets the analysis continue to build and render the plan. -/
theorem external_failure_step_dependent :
    (∀ (module_info_file : String) (rc : Int), rc ≠ 0 →
        load_module_info_check module_info_file rc
          = .error ("Error building " ++ module_info_file))
    ∧ (∀ (b : String) (ls : List String) (rc rc' : Int),
        build_hiddenapi_flags b ls rc = build_hiddenapi_flags b ls rc') :=
  ⟨fun f rc h => by simp [load_module_info_check, h],
   fun b ls rc rc' => rfl⟩

/-- Witness for the C4 amended theorem at exit status 1. -/
theorem external_failure_step_dependent_witness :
    ((1 : Int) ≠ 0
      ∧ load_module_info_check "out/target/product/vsoc/module-info.json" 1
          = .error ("Error building " ++ "out/target/product/vsoc/module-info.json"))
    ∧ build_hiddenapi_flags "x/y" [] 1 = build_hiddenapi_flags "x/y" [] 0 :=
  ⟨⟨by decide, external_failure_step_dependent.1 _ 1 (by decide)⟩,
   external_failure_step_dependent.2 "x/y" [] 1 0⟩

/-! ## Well-formed section streams -/

/-- The lines of a list of body triples: each pair of diff lines is followed
by its blank separator line. -/
def tripleConcat : List (String × String) → List String
  | [] => []
  | e :: es => e.1 :: e.2 :: "" :: tripleConcat es

/-- Structural well-formedness of one body triple with matching signatures:
correct diff markers on both lines and equal extracted signatures. -/
def wellFormedPair (m p : String) : Prop :=
  pyStartsWith m "< " = true ∧ pyStartsWith p "> " = true
    ∧ lineSignature "< " m = lineSignature "> " p

instance (m p : String) : Decidable (wellFormedPair m p) := by
  unfold wellFormedPair
  infer_instance

/-- The DiffEntry contributed by one body triple: keyed by the extracted
signature, mapping to the pair of verbatim flag field lists. -/
def entryOf (m p : String) : String × (FlagList × FlagList) :=
  (lineSignature "< " m, (lineFlags "< " m, lineFlags "> " p))

theorem dictInsert_of_fresh (d : DiffDict) (k : String) (v : FlagList × FlagList)
    (h : k ∉ d.map Prod.fst) : dictInsert d k v = d ++ [(k, v)] := by
  have ha : d.any (fun p => p.1 == k) = false := by
    rw [List.any_eq_false]
    intro p hp
    simp only [beq_iff_eq]
    intro hk
    exact h (hk ▸ List.mem_map_of_mem Prod.fst hp)
  simp [dictInsert, ha]

theorem scanLoop_good_triples (significant : Bool) (es : List (String × String)) :
    ∀ (d : DiffDict),
      (∀ e ∈ es, wellFormedPair e.1 e.2) →
      (es.map (fun e => lineSignature "< " e.1)).Nodup →
      (∀ e ∈ es, lineSignature "< " e.1 ∉ d.map Prod.fst) →
      scanLoop significant d (tripleConcat es)
        = .ok ("", d ++ es.map (fun e => entryOf e.1 e.2), []) := by
  induction es with
  | nil =>
    intro d _ _ _
    simp [tripleConcat, scanLoop]
  | cons e es ih =>
    intro d hwf hnd hfresh
    obtain ⟨hm, hp, hsig⟩ := hwf e (List.mem_cons_self e es)
    have hc : check_inconsistent_flag_lines significant e.1 e.2 "" = true := by
      simp [check_inconsistent_flag_lines, hm, hp]
    have hfr : lineSignature "< " e.1 ∉ d.map Prod.fst :=
      hfresh e (List.mem_cons_self e es)
    rw [List.map_cons] at hnd
    have hnd' := List.nodup_cons.mp hnd
    show scanLoop significant d (e.1 :: e.2 :: "" :: tripleConcat es) = _
    simp only [scanLoop, hc, if_true]
    rw [if_pos hsig, dictInsert_of_fresh d _ _ hfr]
    rw [ih (d ++ [(lineSignature "< " e.1, (lineFlags "< " e.1, lineFlags "> " e.2))])
      (fun e' he' => hwf e' (List.mem_cons_of_mem e he'))
      hnd'.2
      ?fresh]
    · simp [entryOf]
    case fresh =>
      intro e' he'
      simp only [List.map_append, List.map_cons, List.map_nil]
      rw [List.mem_append]
      push_neg
      refine ⟨hfresh e' (List.mem_cons_of_mem e he'), ?_⟩
      simp only [List.mem_singleton]
      intro hk
      exact hnd'.1 (hk ▸ List.mem_map_of_mem (fun x => lineSignature "< " x.1) he')

/-- C5: on a well-formed single-section stream whose header module line
contains the fragment subdirectory, every body triple with matching
signatures contributes exactly one DiffEntry keyed by its extracted
signature and mapping to the pair of module and monolithic flag lists, each
being the comma-separated fields after the signature in verbatim input
order. Pairwise distinct signatures are assumed, as the spec treats a
repeated signature as invariant-violation input. -/
theorem scan_single_section_entries :
    ∀ (bcpfSubdir hm hp : String) (es : List (String × String)),
      pyContains hm bcpfSubdir = true →
      pyStartsWith hm "< " = true →
      pyStartsWith hp "> " = true →
      (∀ e ∈ es, wellFormedPair e.1 e.2) →
      (es.map (fun e => lineSignature "< " e.1)).Nodup →
      scan_inconsistent_flags_report bcpfSubdir (hm :: hp :: "" :: tripleConcat es)
        = .ok ("", es.map (fun e => entryOf e.1 e.2), []) := by
  intro bcpfSubdir hm hp es _ hm1 hp1 hwf hnd
  have hc : check_inconsistent_flag_lines (pyContains hm bcpfSubdir) hm hp "" = true := by
    simp [check_inconsistent_flag_lines, hm1, hp1]
  simp only [scan_inconsistent_flags_report, hc, if_true]
  rw [scanLoop_good_triples (pyContains hm bcpfSubdir) es [] hwf hnd
    (by intro e he; simp)]
  simp

/-- Witness for C5 on a concrete two-triple significant section. -/
theorem scan_single_section_entries_witness :
    (pyContains "< out/soong/.intermediates/frameworks/av/mybcpf/filtered-stub-flags.csv"
        "frameworks/av/mybcpf" = true
      ∧ (∀ e ∈ [("< La;->m()V,blocked", "> La;->m()V,public-api"),
                ("< Lb/C;->n()V,unsupported,test", "> Lb/C;->n()V")],
          wellFormedPair e.1 e.2))
    ∧ scan_inconsistent_flags_report "frameworks/av/mybcpf"
        ["< out/soong/.intermediates/frameworks/av/mybcpf/filtered-stub-flags.csv",
         "> out/soong/hiddenapi/hiddenapi-stub-flags.txt", "",
         "< La;->m()V,blocked", "> La;->m()V,public-api", "",
         "< Lb/C;->n()V,unsupported,test", "> Lb/C;->n()V", ""]
        = .ok ("",
            [("La;->m()V", (["blocked"], ["public-api"])),
             ("Lb/C;->n()V", (["unsupported", "test"], []))], []) :=
  ⟨⟨by decide, by decide⟩,
   scan_single_section_entries "frameworks/av/mybcpf"
     "< out/soong/.intermediates/frameworks/av/mybcpf/filtered-stub-flags.csv"
     "> out/soong/hiddenapi/hiddenapi-stub-flags.txt"
     [("< La;->m()V,blocked", "> La;->m()V,public-api"),
      ("< Lb/C;->n()V,unsupported,test", "> Lb/C;->n()V")]
     (by decide) (by decide) (by decide) (by decide) (by decide)⟩

/-! ## Catalog lemmas -/

theorem mem_setAdd_self (s : List String) (x : String) : x ∈ setAdd s x := by
  by_cases h : x ∈ s <;> simp [setAdd, h]

theorem mem_setAdd_of_mem (s : List String) (x y : String) (hy : y ∈ s) :
    y ∈ setAdd s x := by
  by_cases h : x ∈ s <;> simp [setAdd, h, hy]

theorem setAdd_of_mem (s : List String) (x : String) (h : x ∈ s) :
    setAdd s x = s := if_pos h

theorem load_all_flags_cons (st : BcpfAnalyzerState) (l : String)
    (ls : List String) :
    load_all_flags st (l :: ls) = load_all_flags (load_flags_line st l) ls := rfl

theorem load_all_flags_mono (ls : List String) :
    ∀ (st : BcpfAnalyzerState) (x y : String),
      x ∈ st._signatures → y ∈ st._classes →
      x ∈ (load_all_flags st ls)._signatures
        ∧ y ∈ (load_all_flags st ls)._classes := by
  induction ls with
  | nil => intro st x y hx hy; exact ⟨hx, hy⟩
  | cons l ls ih =>
    intro st x y hx hy
    rw [load_all_flags_cons]
    exact ih (load_flags_line st l) x y
      (mem_setAdd_of_mem _ _ _ hx) (mem_setAdd_of_mem _ _ _ hy)

theorem load_all_flags_mem_line (ls : List String) :
    ∀ (st : BcpfAnalyzerState) (l : String), l ∈ ls →
      line_to_signature l ∈ (load_all_flags st ls)._signatures
        ∧ signature_to_class (line_to_signature l)
            ∈ (load_all_flags st ls)._classes := by
  induction ls with
  | nil => intro st l h; exact absurd h (List.not_mem_nil l)
  | cons a ls ih =>
    intro st l h
    rw [load_all_flags_cons]
    rcases List.mem_cons.mp h with h | h
    · subst h
      exact load_all_flags_mono ls (load_flags_line st l) _ _
        (mem_setAdd_self _ _) (mem_setAdd_self _ _)
    · exact ih (load_flags_line st a) l h

theorem load_all_flags_noop (ls : List String) :
    ∀ (st : BcpfAnalyzerState),
      (∀ l ∈ ls, line_to_signature l ∈ st._signatures
        ∧ signature_to_class (line_to_signature l) ∈ st._classes) →
      load_all_flags st ls = st := by
  induction ls with
  | nil => intro st _; rfl
  | cons a ls ih =>
    intro st h
    obtain ⟨h1, h2⟩ := h a (List.mem_cons_self a ls)
    have hstep : load_flags_line st a = st := by
      simp [load_flags_line, setAdd_of_mem _ _ h1, setAdd_of_mem _ _ h2]
    rw [load_all_flags_cons, hstep]
    exact ih st (fun l hl => h l (List.mem_cons_of_mem a hl))

/-- C7 counterexample: the claim says a second population call is a fatal
programmer error. The source has no such check: load_all_flags neither
records that it already ran nor inspects the existing sets, so a second
call completes normally (here it merely re-adds already present elements)
and the catalog stays fully usable afterwards. -/
theorem double_population_not_fatal :
    signatures (load_all_flags (load_all_flags {} ["La/B;->m()V,blocked"])
        ["La/B;->m()V,blocked"]) = .ok ["La/B;->m()V"]
    ∧ classes (load_all_flags (load_all_flags {} ["La/B;->m()V,blocked"])
        ["La/B;->m()V,blocked"]) = .ok ["La/B"] := ⟨rfl, rfl⟩

/-- C7 amended: querying the signatures or classes of the untouched catalog
raises the has-not-been-initialized error, and repeating a population call
with the same lines is accepted without error and leaves the catalog
unchanged — there is no double-population guard in the source. -/
theorem catalog_query_guard :
    signatures ({} : BcpfAnalyzerState) = .error "signatures has not been initialized"
    ∧ classes ({} : BcpfAnalyzerState) = .error "classes has not been initialized"
    ∧ ∀ (st : BcpfAnalyzerState) (ls : List String),
        load_all_flags (load_all_flags st ls) ls = load_all_flags st ls :=
  ⟨rfl, rfl, fun st ls =>
    load_all_flags_noop ls (load_all_flags st ls)
      (fun l hl => load_all_flags_mem_line ls st l hl)⟩

/-- C10: populating the catalog from a file yielding no lines leaves the
state equal to the unpopulated one, so both queries still raise the
has-not-been-initialized error even though population did occur: the
property guards test emptiness of the sets, not a populated flag. -/
theorem empty_population_looks_unpopulated :
    load_all_flags {} [] = ({} : BcpfAnalyzerState)
    ∧ signatures (load_all_flags {} [])
        = .error "signatures has not been initialized"
    ∧ classes (load_all_flags {} [])
        = .error "classes has not been initialized" := ⟨rfl, rfl, rfl⟩

/-- C6: scanning one override file against the catalog appends exactly one
removal FileChange for the override file and one addition FileChange for
the fragment-owned file, both listing exactly the matched signatures, and
exactly one PropertyChange valued with the fragment-relative file, when at
least one signature matches; a signature outside the catalog never enters
the matched set the changes are built from; and a file with no match
produces no change at all. -/
theorem override_file_changes_exact :
    ∀ (relTop : String → String) (catalog : List String)
      (property_name flags_file rel_file bcpf_flags_file : String)
      (flagsFileLines : List String) (result : Result),
      (∀ s, s ∉ catalog → s ∉ matchedSignatures catalog flagsFileLines)
      ∧ (matchedSignatures catalog flagsFileLines ≠ [] →
          report_hidden_api_flag_file_changes relTop catalog property_name
              flags_file rel_file bcpf_flags_file flagsFileLines result
            = { result with
                file_changes := result.file_changes ++
                  [{ path := relTop flags_file,
                     description := "Remove the following entries:\n"
                       ++ indentedEntries (matchedSignatures catalog flagsFileLines)
                       ++ "\n" },
                   { path := relTop bcpf_flags_file,
                     description := "Add the following entries:\n"
                       ++ indentedEntries (matchedSignatures catalog flagsFileLines)
                       ++ "\n" }],
                property_changes := result.property_changes ++
                  [{ property_name := property_name, values := [rel_file] }] })
      ∧ (matchedSignatures catalog flagsFileLines = [] →
          report_hidden_api_flag_file_changes relTop catalog property_name
              flags_file rel_file bcpf_flags_file flagsFileLines result
            = result) := by
  intro relTop catalog property_name flags_file rel_file bcpf_flags_file
    flagsFileLines result
  refine ⟨?_, ?_, ?_⟩
  · intro s hs hmem
    exact hs (of_decide_eq_true
      (List.mem_filter.mp (List.mem_dedup.mp hmem)).2)
  · intro hne
    rw [report_hidden_api_flag_file_changes]
    rw [if_neg (by simpa using hne)]
  · intro he
    rw [report_hidden_api_flag_file_changes]
    rw [if_pos (by simpa using he)]

/-- Witness for C6 on the spec example: catalog containing A and B and an
override file listing A, C, D. -/
theorem override_file_changes_exact_witness :
    ("C" ∉ ["A", "B"] ∧ "C" ∉ matchedSignatures ["A", "B"] ["A", "C", "D"])
    ∧ matchedSignatures ["A", "B"] ["A", "C", "D"] ≠ []
    ∧ report_hidden_api_flag_file_changes id ["A", "B"] "max_target_o_low_priority"
        "frameworks/base/boot/hiddenapi/hiddenapi-max-target-o.txt"
        "hiddenapi/hiddenapi-max-target-o-low-priority.txt"
        "frameworks/av/mybcpf/hiddenapi/hiddenapi-max-target-o-low-priority.txt"
        ["A", "C", "D"] {}
      = { file_changes :=
            [{ path := "frameworks/base/boot/hiddenapi/hiddenapi-max-target-o.txt",
               description := "Remove the following entries:\n"
                 ++ indentedEntries (matchedSignatures ["A", "B"] ["A", "C", "D"])
                 ++ "\n" },
             { path := "frameworks/av/mybcpf/hiddenapi/hiddenapi-max-target-o-low-priority.txt",
               description := "Add the following entries:\n"
                 ++ indentedEntries (matchedSignatures ["A", "B"] ["A", "C", "D"])
                 ++ "\n" }],
          property_changes :=
            [{ property_name := "max_target_o_low_priority",
               values := ["hiddenapi/hiddenapi-max-target-o-low-priority.txt"] }] } :=
  ⟨⟨by decide,
    (override_file_changes_exact id ["A", "B"] "max_target_o_low_priority"
      "frameworks/base/boot/hiddenapi/hiddenapi-max-target-o.txt"
      "hiddenapi/hiddenapi-max-target-o-low-priority.txt"
      "frameworks/av/mybcpf/hiddenapi/hiddenapi-max-target-o-low-priority.txt"
      ["A", "C", "D"] {}).1 "C" (by decide)⟩,
   by decide,
   (override_file_changes_exact id ["A", "B"] "max_target_o_low_priority"
      "frameworks/base/boot/hiddenapi/hiddenapi-max-target-o.txt"
      "hiddenapi/hiddenapi-max-target-o-low-priority.txt"
      "frameworks/av/mybcpf/hiddenapi/hiddenapi-max-target-o-low-priority.txt"
      ["A", "C", "D"] {}).2.1 (by decide)⟩

/-- C8: the two legacy override basenames are remapped to the renamed
canonical tokens when generating the fragment-owned filename, and the
property name derived from the remapped basename carries the canonical
token with dashes turned into underscores. -/
theorem legacy_basename_remap :
    remapBasename "hiddenapi-max-target-o.txt"
        = "hiddenapi-max-target-o-low-priority.txt"
    ∧ derive_property_name (remapBasename "hiddenapi-max-target-o.txt")
        = "max_target_o_low_priority"
    ∧ rel_bcpf_flags_file "hiddenapi-max-target-o.txt"
        = "hiddenapi/hiddenapi-max-target-o-low-priority.txt"
    ∧ remapBasename "hiddenapi-max-target-r-loprio.txt"
        = "hiddenapi-max-target-r-low-priority.txt"
    ∧ derive_property_name (remapBasename "hiddenapi-max-target-r-loprio.txt")
        = "max_target_r_low_priority"
    ∧ rel_bcpf_flags_file "hiddenapi-max-target-r-loprio.txt"
        = "hiddenapi/hiddenapi-max-target-r-low-priority.txt" :=
  ⟨rfl, rfl, rfl, rfl, rfl, rfl⟩

/-! ## Sorting lemmas for the rendered plan -/

theorem fileChangeLe_trans (a b c : FileChange) (h1 : fileChangeLe a b = true)
    (h2 : fileChangeLe b c = true) : fileChangeLe a c = true := by
  simp only [fileChangeLe, decide_eq_true_eq] at h1 h2 ⊢
  exact le_trans h1 h2

theorem fileChangeLe_total (a b : FileChange) :
    (fileChangeLe a b || fileChangeLe b a) = true := by
  simp only [fileChangeLe, Bool.or_eq_true, decide_eq_true_eq]
  exact le_total a.path b.path

/-- C9: the sort applied to the accumulated FileChanges before rendering is
sorted by path, is a permutation of the accumulated list, is idempotent,
and is stable: the subsequence of changes carrying any fixed path is kept
in insertion order. Hence the rendered paths are exactly the
sorted-by-path ordering of the originally accumulated FileChanges. -/
theorem file_changes_render_order :
    ∀ (l : List FileChange),
      (sortFileChanges l).Pairwise (fun a b => a.path ≤ b.path)
      ∧ (sortFileChanges l).Perm l
      ∧ sortFileChanges (sortFileChanges l) = sortFileChanges l
      ∧ ∀ (p : String),
          (sortFileChanges l).filter (fun c => c.path == p)
            = l.filter (fun c => c.path == p) := by
  intro l
  have hsorted := List.sorted_mergeSort fileChangeLe_trans fileChangeLe_total l
  refine ⟨?_, List.mergeSort_perm l fileChangeLe, ?_, ?_⟩
  · exact hsorted.imp (fun h => by
      simpa [fileChangeLe, decide_eq_true_eq] using h)
  · exact List.mergeSort_of_sorted hsorted
  · intro p
    have hall : ∀ c ∈ l.filter (fun c : FileChange => c.path == p),
        c.path = p := by
      intro c hc
      exact of_decide_eq_true (List.mem_filter.mp hc).2
    have hpw : (l.filter (fun c : FileChange => c.path == p)).Pairwise
        (fun a b => fileChangeLe a b = true) := by
      refine List.pairwise_of_forall_mem_list ?_
      intro a ha b hb
      simp only [fileChangeLe, decide_eq_true_eq]
      rw [hall a ha, hall b hb]
    have hsub : (l.filter (fun c : FileChange => c.path == p)).Sublist
        (sortFileChanges l) :=
      List.sublist_mergeSort fileChangeLe_trans fileChangeLe_total hpw
        (List.filter_sublist l)
    have hsub2 : (l.filter (fun c : FileChange => c.path == p)).Sublist
        ((sortFileChanges l).filter (fun c => c.path == p)) := by
      have := hsub.filter (fun c : FileChange => c.path == p)
      rw [List.filter_filter] at this
      simpa only [Bool.and_self] using this
    refine (hsub2.eq_of_length ?_).symm
    exact ((List.mergeSort_perm l fileChangeLe).filter
      (fun c : FileChange => c.path == p)).length_eq.symm

end AnalyzeBcpf
